import Mathlib

/-!
Verification of the CATCLIENT launcher core (Client.py, Cat4k.py,
CAT2.1.X.py, $CATCLIENT1.1.py) against its natural-language specification.

The Python code is shallowly embedded: dictionaries become structures,
the filesystem becomes an explicit list of present paths, the network
becomes an environment of deterministic maps, and `install_version`
becomes a fuel-indexed recursive function (the Python function recurses
on the `inheritsFrom` parent with no depth bound).
-/

/-! ## Rule evaluation (Cat4k.py `lib_rules_allow`, lines 502-514;
the same expression appears inline in Client.py lines 192-193 and in the
install loop of Cat4k.py lines 284-296). -/

/-- The `os` object of a rule: `{"name": ..., "arch": ...}`, each key
optional.  An absent or empty `os` dict (both falsy in Python) is
modelled as the rule's `os := none`. -/
structure OsSpec where
  name : Option String
  arch : Option String
deriving Repr, DecidableEq

/-- A rule `{"action": "allow"|"disallow", "os": {...}?}`. -/
structure Rule where
  action : String
  os : Option OsSpec
deriving Repr, DecidableEq

/-- `not rule.get("os") or rule["os"].get("name") == osName`:
the OS test the code applies to a single rule.  The architecture field is
never consulted by the code. -/
def ruleOsTest (r : Rule) (osName : String) : Bool :=
  match r.os with
  | none => true
  | some o => o.name == some osName

/-- Cat4k.py `lib_rules_allow` (lines 502-514), parameterised by the
current OS name the source computes as
`"osx" if IS_MAC else "windows" if platform.system()=="Windows" else "linux"`:
`not rules or any(rule["action"]=="allow" and (not rule.get("os") or
rule["os"].get("name")==osName) for rule in rules)`. -/
def lib_rules_allow (rules : List Rule) (osName : String) : Bool :=
  rules.isEmpty || rules.any (fun r => r.action == "allow" && ruleOsTest r osName)

/-- The OS name string the source derives from `platform.system()`. -/
def currentOsName (system : String) : String :=
  if system == "Darwin" then "osx"
  else if system == "Windows" then "windows"
  else "linux"

/-- A platform as the spec describes it: an OS name and an architecture. -/
structure Platform where
  osName : String
  arch : String
deriving Repr, DecidableEq

/-- Modelled from the spec: a rule "matches" if its OS constraint is absent
or equals the current platform's OS name, and its optional architecture
constraint, if present, equals the current architecture. -/
def specRuleMatches (r : Rule) (p : Platform) : Bool :=
  match r.os with
  | none => true
  | some o =>
      (o.name == none || o.name == some p.osName) &&
      (o.arch == none || o.arch == some p.arch)

/-- Modelled from the spec: fold over rules in order, tracking the verdict
of the most recently matched rule; the final verdict is the last match's
action, defaulting to false if no rule ever matched. -/
def specIsAllowed (rules : List Rule) (p : Platform) : Bool :=
  (rules.foldl
    (fun verdict r =>
      if specRuleMatches r p then some (r.action == "allow") else verdict)
    none).getD false

/-- The example rule list of the spec:
`[{allow, os:none}, {disallow, os:windows}]`. -/
def exampleRules : List Rule :=
  [ { action := "allow", os := none },
    { action := "disallow", os := some { name := some "windows", arch := none } } ]

/-! Claim theorems for rule evaluation. -/

/-- Claim C8: for every rule list that is empty, rule evaluation returns
true (the entry is allowed) regardless of the platform. -/
theorem empty_rules_always_allow (osName : String) :
    lib_rules_allow [] osName = true := by
  simp [lib_rules_allow]

/-- Claim C1, counterexample: on the spec's example rule list
`[{allow, os:none}, {disallow, os:windows}]` the code's rule evaluation
returns true on platform windows, while the claimed last-match-wins
evaluation returns false there: the claim is false of the code. -/
theorem rule_eval_not_last_match_wins :
    lib_rules_allow exampleRules "windows" = true ∧
    specIsAllowed exampleRules { osName := "windows", arch := "x86_64" } = false := by
  constructor
  · rfl
  · rfl

/-- Claim C1, amended: for every non-empty rule list and OS name, the
code's rule evaluation returns true exactly when some rule (in any
position) has action "allow" and an OS constraint that is absent or equal
to the platform's OS name; disallow rules never override, the architecture
constraint is ignored, and the verdict is false only when no allow rule
matches. -/
theorem rule_eval_any_allow_matches (rules : List Rule) (osName : String)
    (hne : rules ≠ []) :
    lib_rules_allow rules osName = true ↔
      ∃ r ∈ rules, r.action = "allow" ∧
        (r.os = none ∨ ∃ o, r.os = some o ∧ o.name = some osName) := by
  unfold lib_rules_allow
  rw [List.isEmpty_eq_false.mpr hne]
  simp only [Bool.false_or, List.any_eq_true, Bool.and_eq_true, beq_iff_eq]
  constructor
  · rintro ⟨r, hr, hact, htest⟩
    refine ⟨r, hr, hact, ?_⟩
    unfold ruleOsTest at htest
    cases hos : r.os with
    | none => exact Or.inl rfl
    | some o =>
        rw [hos] at htest
        exact Or.inr ⟨o, rfl, by simpa using htest⟩
  · rintro ⟨r, hr, hact, hos⟩
    refine ⟨r, hr, hact, ?_⟩
    unfold ruleOsTest
    rcases hos with h | ⟨o, ho, hname⟩
    · rw [h]
    · rw [ho]
      simp [hname]

/-- Claim C1, witness: the amended characterisation evaluated on the
spec's example rule list on platform linux. -/
theorem rule_eval_any_allow_matches_witness :
    lib_rules_allow exampleRules "linux" = true ↔
      ∃ r ∈ exampleRules, r.action = "allow" ∧
        (r.os = none ∨ ∃ o, r.os = some o ∧ o.name = some "linux") :=
  rule_eval_any_allow_matches exampleRules "linux" (by decide)

/-! ## Version descriptors and the inheritance merge
(Client.py `install_version` line 189, `launch_game` lines 306 and
331-332; Cat4k.py `launch_game` lines 552-558). -/

/-- A token of `arguments.jvm` / `arguments.game`: either a literal string
or a conditional object `{"rules": ..., "value": string | [string]}`. -/
inductive ArgToken where
  | lit (s : String)
  | cond (rules : List Rule) (value : List String) (single : Bool)
deriving Repr, DecidableEq

/-- A library entry: its rules, its classpath artifact path
(`downloads.artifact.path`), its `natives` dict ("osx" key value, `none`
when the dict is absent or empty) and its `downloads.classifiers`
(classifier key to artifact path). -/
structure Lib where
  rules : List Rule
  artifactPath : Option String
  natives : Option (Option String)
  classifiers : List (String × String)
deriving Repr, DecidableEq

/-- The `assetIndex` object of a descriptor. -/
structure AssetIndexInfo where
  id : String
  url : String
deriving Repr, DecidableEq

/-- A parsed version JSON.  `clientDownload` is `downloads.client` (inner
option: its `url` key); `argumentsJvm`/`argumentsGame` are
`arguments.jvm` / `arguments.game` (`none` when the key is absent, which
Cat4k.py distinguishes from an empty list). -/
structure VersionData where
  inheritsFrom : Option String
  mainClass : Option String
  clientDownload : Option (Option String)
  libraries : List Lib
  assetIndex : Option AssetIndexInfo
  argumentsJvm : Option (List ArgToken)
  argumentsGame : Option (List ArgToken)
  minecraftArguments : Option String
  skinVersion : Option Bool
deriving Repr, DecidableEq

/-- The empty dict `parent_data = {}` used when a version has no parent. -/
def emptyVersionData : VersionData :=
  { inheritsFrom := none, mainClass := none, clientDownload := none,
    libraries := [], assetIndex := none, argumentsJvm := none,
    argumentsGame := none, minecraftArguments := none, skinVersion := none }

/-- Client.py line 189 (and Cat4k.py line 282 / line 516):
`libraries = version_data.get("libraries", []) + parent_data.get("libraries", [])`. -/
def installLibraries (vdata pdata : VersionData) : List Lib :=
  vdata.libraries ++ pdata.libraries

/-- Python `str.split()` on spaces (the legacy `minecraftArguments`
fallback tokenizer). -/
def pySplit (s : String) : List String :=
  (s.splitOn " ").filter (fun t => t ≠ "")

/-- Client.py line 331:
`raw_jvm_args = parent_args_data.get("jvm", []) + args_data.get("jvm", [])`. -/
def rawJvmArgs (vdata parentData : VersionData) : List ArgToken :=
  parentData.argumentsJvm.getD [] ++ vdata.argumentsJvm.getD []

/-- Client.py line 332: `raw_game_args = parent_args_data.get("game", []) +
args_data.get("game", []) or vdata.get("minecraftArguments", "").split()`. -/
def rawGameArgs (vdata parentData : VersionData) : List ArgToken :=
  let g := parentData.argumentsGame.getD [] ++ vdata.argumentsGame.getD []
  if g.isEmpty then (pySplit (vdata.minecraftArguments.getD "")).map ArgToken.lit
  else g

/-- Cat4k.py line 554:
`raw_jvm_args = args_data.get("jvm", parent_args_data.get("jvm", []))`. -/
def cat4kRawJvmArgs (vdata parentData : VersionData) : List ArgToken :=
  vdata.argumentsJvm.getD (parentData.argumentsJvm.getD [])

/-- Cat4k.py lines 555-558:
`raw_game_args = args_data.get("game", parent_args_data.get("game", []))`
then the `minecraftArguments` fallback when that list is empty and the key
is present. -/
def cat4kRawGameArgs (vdata parentData : VersionData) : List ArgToken :=
  let g := vdata.argumentsGame.getD (parentData.argumentsGame.getD [])
  if g.isEmpty && vdata.minecraftArguments.isSome then
    (pySplit (vdata.minecraftArguments.getD "")).map ArgToken.lit
  else g

/-! ## The skinVersion patch (Cat4k.py lines 363-374, CAT2.1.X.py lines
274-284): the final step of `install_version` in those variants re-opens
the cached version JSON and, when `data.get("skinVersion", False)` is
falsy, sets `skinVersion = true` and rewrites the file. -/

def skinPatch (d : VersionData) : VersionData :=
  if d.skinVersion.getD false then d else { d with skinVersion := some true }

/-! ## The retrying fetcher ($CATCLIENT1.1.py `download_file`,
lines 92-115).  `net attempt` tells whether the transfer of attempt
number `attempt` (0-based) succeeds; the result is (returned-true,
backoff delays slept, in order).  A transient failure at attempt `a`
executes `attempt += 1; time.sleep(2 ** attempt)`, i.e. sleeps
`2 ^ (a+1)` seconds, including after the final failed attempt; when the
`while attempt < retries` loop exits, the function raises (first
component false). -/

def dlLoop (net : Nat → Bool) : Nat → Nat → Bool × List Nat
  | 0, _ => (false, [])
  | remaining + 1, attempt =>
      if net attempt then (true, [])
      else
        let rest := dlLoop net remaining (attempt + 1)
        (rest.1, 2 ^ (attempt + 1) :: rest.2)

/-- `download_file(url, dest, description, ssl_verify, retries=3)` of
$CATCLIENT1.1.py, abstracted over the transfer outcomes: starts with
`attempt = 0` and loops while `attempt < retries`. -/
def download_file_retry (net : Nat → Bool) (retries : Nat) : Bool × List Nat :=
  dlLoop net retries 0

/-- Claim C6: a fetch whose transfer fails transiently on the first two
attempts and succeeds on the third returns success (destination written)
after exactly two backoff delays, and a fetch that fails on every attempt
up to the bound of 3 raises a terminal error (after its backoff sleeps). -/
theorem retry_two_failures_then_success (net : Nat → Bool)
    (h0 : net 0 = false) (h1 : net 1 = false) (h2 : net 2 = true)
    (netBad : Nat → Bool) (hbad : ∀ a, a < 3 → netBad a = false) :
    download_file_retry net 3 = (true, [2, 4]) ∧
    (download_file_retry netBad 3).1 = false := by
  constructor
  · simp [download_file_retry, dlLoop, h0, h1, h2]
  · simp [download_file_retry, dlLoop,
      hbad 0 (by norm_num), hbad 1 (by norm_num), hbad 2 (by norm_num)]

/-- Claim C6, witness: the retry behaviour at the concrete outcome
sequences fail-fail-succeed and fail-fail-fail. -/
theorem retry_two_failures_then_success_witness :
    download_file_retry (fun a => a == 2) 3 = (true, [2, 4]) ∧
    (download_file_retry (fun _ => false) 3).1 = false :=
  retry_two_failures_then_success (fun a => a == 2)
    (by decide) (by decide) (by decide)
    (fun _ => false) (fun a _ => rfl)

/-! Claim theorems for the inheritance merge. -/

/-- A concrete child library entry for the merge counterexample. -/
def childLib : Lib :=
  { rules := [], artifactPath := some "com/example/child/child.jar",
    natives := none, classifiers := [] }

/-- A concrete parent library entry for the merge counterexample. -/
def parentLib : Lib :=
  { rules := [], artifactPath := some "com/example/parent/parent.jar",
    natives := none, classifiers := [] }

/-- A child descriptor with one library, for the merge counterexample. -/
def childVd : VersionData :=
  { emptyVersionData with inheritsFrom := some "parent", libraries := [childLib] }

/-- A parent descriptor with one library, for the merge counterexample. -/
def parentVd : VersionData :=
  { emptyVersionData with libraries := [parentLib] }

/-- Claim C2, counterexample: for a child with one library and a parent
with one library, the code builds the merged list child-then-parent, not
the claimed parent-then-child concatenation. -/
theorem merge_library_order_cex :
    installLibraries childVd parentVd = [childLib, parentLib] ∧
    installLibraries childVd parentVd ≠
      parentVd.libraries ++ childVd.libraries := by
  constructor
  · rfl
  · decide

/-- Claim C2, amended: the merged library list is the child-then-parent
concatenation (the child's libraries form the prefix and the parent's the
suffix, each in declared order).  The jvm and game argument lists of
Client.py/CAT2.1.X are the parent-then-child concatenation (for the game
list, when that concatenation is non-empty; an empty concatenation falls
back to splitting the legacy `minecraftArguments` string), while Cat4k
instead takes the child's argument list when the child declares one and
the parent's otherwise (for the game list, when the chosen list is
non-empty). -/
theorem merge_child_then_parent (vd pd : VersionData) :
    (installLibraries vd pd).take vd.libraries.length = vd.libraries ∧
    (installLibraries vd pd).drop vd.libraries.length = pd.libraries ∧
    (rawJvmArgs vd pd).take (pd.argumentsJvm.getD []).length =
      pd.argumentsJvm.getD [] ∧
    (rawJvmArgs vd pd).drop (pd.argumentsJvm.getD []).length =
      vd.argumentsJvm.getD [] ∧
    (∀ l, vd.argumentsJvm = some l → cat4kRawJvmArgs vd pd = l) ∧
    (vd.argumentsJvm = none →
      cat4kRawJvmArgs vd pd = pd.argumentsJvm.getD []) ∧
    (pd.argumentsGame.getD [] ++ vd.argumentsGame.getD [] ≠ [] →
      (rawGameArgs vd pd).take (pd.argumentsGame.getD []).length =
        pd.argumentsGame.getD [] ∧
      (rawGameArgs vd pd).drop (pd.argumentsGame.getD []).length =
        vd.argumentsGame.getD []) ∧
    (pd.argumentsGame.getD [] ++ vd.argumentsGame.getD [] = [] →
      rawGameArgs vd pd =
        (pySplit (vd.minecraftArguments.getD "")).map ArgToken.lit) ∧
    (∀ l, vd.argumentsGame = some l → l ≠ [] → cat4kRawGameArgs vd pd = l) ∧
    (vd.argumentsGame = none → pd.argumentsGame.getD [] ≠ [] →
      cat4kRawGameArgs vd pd = pd.argumentsGame.getD []) := by
  refine ⟨List.take_left _ _, List.drop_left _ _, List.take_left _ _,
    List.drop_left _ _, ?_, ?_, ?_, ?_, ?_, ?_⟩
  · intro l hl
    simp [cat4kRawJvmArgs, hl]
  · intro hl
    simp [cat4kRawJvmArgs, hl]
  · intro hg
    have hne2 : (pd.argumentsGame.getD [] ++ vd.argumentsGame.getD []).isEmpty
        = false := List.isEmpty_eq_false.mpr hg
    refine ⟨?_, ?_⟩
    · simp only [rawGameArgs]
      rw [if_neg (by simp [hne2])]
      exact List.take_left _ _
    · simp only [rawGameArgs]
      rw [if_neg (by simp [hne2])]
      exact List.drop_left _ _
  · intro hg
    have hemp : (pd.argumentsGame.getD [] ++ vd.argumentsGame.getD []).isEmpty
        = true := by
      rw [hg]
      rfl
    simp only [rawGameArgs]
    rw [if_pos hemp]
  · intro l hl hlne
    simp [cat4kRawGameArgs, hl, List.isEmpty_eq_false.mpr hlne]
  · intro hnone hpne
    simp [cat4kRawGameArgs, hnone, List.isEmpty_eq_false.mpr hpne]

/-- A child descriptor carrying jvm and game argument lists, for the C2
witness. -/
def argChildVd : VersionData :=
  { emptyVersionData with
    inheritsFrom := some "parent",
    libraries := [childLib],
    argumentsJvm := some [ArgToken.lit "-DchildJvm"],
    argumentsGame := some [ArgToken.lit "--childGame"] }

/-- A parent descriptor carrying jvm and game argument lists, for the C2
witness. -/
def argParentVd : VersionData :=
  { emptyVersionData with
    libraries := [parentLib],
    argumentsJvm := some [ArgToken.lit "-DparentJvm"],
    argumentsGame := some [ArgToken.lit "--parentGame"] }

/-- Claim C2, witness: the amended merge characterisation at concrete
one-library descriptors that both declare jvm and game argument lists. -/
theorem merge_child_then_parent_witness :
    (installLibraries argChildVd argParentVd).take
        argChildVd.libraries.length = argChildVd.libraries ∧
    (installLibraries argChildVd argParentVd).drop
        argChildVd.libraries.length = argParentVd.libraries ∧
    (rawJvmArgs argChildVd argParentVd).take
        (argParentVd.argumentsJvm.getD []).length =
      argParentVd.argumentsJvm.getD [] ∧
    (rawJvmArgs argChildVd argParentVd).drop
        (argParentVd.argumentsJvm.getD []).length =
      argChildVd.argumentsJvm.getD [] ∧
    (∀ l, argChildVd.argumentsJvm = some l →
      cat4kRawJvmArgs argChildVd argParentVd = l) ∧
    (argChildVd.argumentsJvm = none →
      cat4kRawJvmArgs argChildVd argParentVd =
        argParentVd.argumentsJvm.getD []) ∧
    (argParentVd.argumentsGame.getD [] ++ argChildVd.argumentsGame.getD []
        ≠ [] →
      (rawGameArgs argChildVd argParentVd).take
          (argParentVd.argumentsGame.getD []).length =
        argParentVd.argumentsGame.getD [] ∧
      (rawGameArgs argChildVd argParentVd).drop
          (argParentVd.argumentsGame.getD []).length =
        argChildVd.argumentsGame.getD []) ∧
    (argParentVd.argumentsGame.getD [] ++ argChildVd.argumentsGame.getD []
        = [] →
      rawGameArgs argChildVd argParentVd =
        (pySplit (argChildVd.minecraftArguments.getD "")).map ArgToken.lit) ∧
    (∀ l, argChildVd.argumentsGame = some l → l ≠ [] →
      cat4kRawGameArgs argChildVd argParentVd = l) ∧
    (argChildVd.argumentsGame = none →
      argParentVd.argumentsGame.getD [] ≠ [] →
      cat4kRawGameArgs argChildVd argParentVd =
        argParentVd.argumentsGame.getD []) :=
  merge_child_then_parent argChildVd argParentVd


/-! Claim theorems for the skinVersion patch. -/

/-- A fetched descriptor that already carries `skinVersion = true`. -/
def descWithSkin : VersionData :=
  { emptyVersionData with skinVersion := some true }

/-- Claim C9, counterexample: on a descriptor whose fetched JSON already
has `skinVersion = true`, the final patch step of Cat4k/CAT2.1.X
`install_version` rewrites nothing: the stored descriptor stays identical
to the fetched one, so a successful install does not always leave the
file different from what was fetched. -/
theorem skin_patch_identity_cex : skinPatch descWithSkin = descWithSkin := by
  decide

/-- Claim C9, amended: after the final patch step the stored descriptor
always carries `skinVersion = true`, and the step changes the stored
descriptor exactly when the fetched one did not already carry
`skinVersion = true` (absent or false). -/
theorem skin_patch_always_true (d : VersionData) :
    (skinPatch d).skinVersion = some true ∧
    (skinPatch d ≠ d ↔ d.skinVersion ≠ some true) := by
  constructor
  · unfold skinPatch
    rcases h : d.skinVersion with _ | b
    · simp [h]
    · cases b <;> simp [h]
  · constructor
    · intro hne heq
      apply hne
      unfold skinPatch
      rw [heq]
      simp
    · intro hne heq
      apply hne
      have : (skinPatch d).skinVersion = d.skinVersion := by rw [heq]
      unfold skinPatch at this
      rcases h : d.skinVersion with _ | b
      · rw [h] at this
        simp at this
      · cases b
        · rw [h] at this
          simp at this
        · rfl

/-- Claim C9, witness: the amended patch behaviour at a descriptor whose
fetched JSON has no `skinVersion` key. -/
theorem skin_patch_always_true_witness :
    (skinPatch emptyVersionData).skinVersion = some true ∧
    (skinPatch emptyVersionData ≠ emptyVersionData ↔
      emptyVersionData.skinVersion ≠ some true) :=
  skin_patch_always_true emptyVersionData

/-! ## Account management (Client.py `add_account` lines 64-82, identical
in Cat4k.py lines 137-156 and the other variants). -/

/-- A persisted account record. -/
structure Account where
  type : String
  username : String
  uuid : String
  token : String
  client : Option String
deriving Repr, DecidableEq

/-- The record `add_account` builds.  `uuidOf` abstracts
`str(uuid.uuid3(uuid.NAMESPACE_DNS, email_username))`; the token is
`(password_token or "null") if acc_type in ["tlauncher","microsoft"]
else "0"` (Python's conditional binds below `or`, and a `None` or empty
token falls back to "null"). -/
def mkAccount (uuidOf : String → String) (accType username : String)
    (passwordToken : Option String) : Account :=
  { type := accType
  , username := username
  , uuid := uuidOf username
  , token :=
      if accType = "tlauncher" ∨ accType = "microsoft" then
        match passwordToken with
        | some s => if s = "" then "null" else s
        | none => "null"
      else "0"
  , client := if accType = "lunar" then some "lunar" else none }

/-- The replace-or-append loop of `add_account`: the first existing record
with the same `(type, username)` is overwritten in place and the loop
returns; otherwise the record is appended at the end. -/
def replaceOrAppend (acc : Account) : List Account → List Account
  | [] => [acc]
  | a :: rest =>
      if a.type = acc.type ∧ a.username = acc.username then acc :: rest
      else a :: replaceOrAppend acc rest

/-- `add_account(acc_type, email_username, password_token)` as a function
of the accounts list: an empty username returns immediately (Python
`if not email_username: return`), otherwise replace-or-append. -/
def add_account (uuidOf : String → String) (accType username : String)
    (passwordToken : Option String) (accounts : List Account) : List Account :=
  if username = "" then accounts
  else replaceOrAppend (mkAccount uuidOf accType username passwordToken) accounts

/-- The `(type, username)` key of a record. -/
def accountKey (a : Account) : String × String := (a.type, a.username)

theorem replaceOrAppend_mem_key (acc : Account) (l : List Account)
    (h : accountKey acc ∈ l.map accountKey) :
    (replaceOrAppend acc l).map accountKey = l.map accountKey := by
  induction l with
  | nil => simp at h
  | cons a rest ih =>
      by_cases hk : a.type = acc.type ∧ a.username = acc.username
      · unfold replaceOrAppend
        rw [if_pos hk, List.map_cons, List.map_cons]
        congr 1
        simp [accountKey, hk.1, hk.2]
      · have h' : accountKey acc ∈ rest.map accountKey := by
          simp only [List.map_cons, List.mem_cons] at h
          rcases h with h | h
          · exfalso
            apply hk
            have h1 : a.type = acc.type := congrArg Prod.fst h.symm
            have h2 : a.username = acc.username := congrArg Prod.snd h.symm
            exact ⟨h1, h2⟩
          · exact h
        unfold replaceOrAppend
        rw [if_neg hk, List.map_cons, List.map_cons, ih h']

theorem replaceOrAppend_not_mem (acc : Account) (l : List Account)
    (h : accountKey acc ∉ l.map accountKey) :
    replaceOrAppend acc l = l ++ [acc] := by
  induction l with
  | nil => rfl
  | cons a rest ih =>
      unfold replaceOrAppend
      by_cases hk : a.type = acc.type ∧ a.username = acc.username
      · exfalso
        apply h
        simp only [List.map_cons, List.mem_cons]
        exact Or.inl (by simp [accountKey, hk.1, hk.2])
      · rw [if_neg hk]
        rw [ih (fun hm => h (by simp only [List.map_cons, List.mem_cons]; exact Or.inr hm))]
        rfl

/-- Claim C10: `add_account` preserves the at-most-one-record-per
`(type, username)` invariant; on a list satisfying it, an existing pair is
replaced in place (the key sequence, hence the length, is unchanged), a
new pair appends exactly one record at the end, and an empty username
leaves the list unchanged. -/
theorem add_account_invariant (uuidOf : String → String)
    (accType username : String) (passwordToken : Option String)
    (accounts : List Account)
    (hinv : (accounts.map accountKey).Nodup) :
    ((add_account uuidOf accType username passwordToken accounts).map
        accountKey).Nodup ∧
    (username = "" →
      add_account uuidOf accType username passwordToken accounts = accounts) ∧
    (username ≠ "" → (accType, username) ∈ accounts.map accountKey →
      (add_account uuidOf accType username passwordToken accounts).map
          accountKey = accounts.map accountKey ∧
      (add_account uuidOf accType username passwordToken accounts).length =
        accounts.length) ∧
    (username ≠ "" → (accType, username) ∉ accounts.map accountKey →
      add_account uuidOf accType username passwordToken accounts =
        accounts ++ [mkAccount uuidOf accType username passwordToken]) := by
  have hkey : accountKey (mkAccount uuidOf accType username passwordToken) =
      (accType, username) := rfl
  refine ⟨?_, ?_, ?_, ?_⟩
  · unfold add_account
    by_cases hu : username = ""
    · rw [if_pos hu]; exact hinv
    · rw [if_neg hu]
      by_cases hm : (accType, username) ∈ accounts.map accountKey
      · rw [replaceOrAppend_mem_key _ _ (by rw [hkey]; exact hm)]
        exact hinv
      · rw [replaceOrAppend_not_mem _ _ (by rw [hkey]; exact hm)]
        rw [List.map_append]
        apply List.Nodup.append hinv (by simp)
        intro k hk1 hk2
        simp only [List.map_cons, List.map_nil, List.mem_singleton] at hk2
        rw [hk2, hkey] at hk1
        exact hm hk1
  · intro hu
    unfold add_account
    rw [if_pos hu]
  · intro hu hm
    unfold add_account
    rw [if_neg hu]
    constructor
    · exact replaceOrAppend_mem_key _ _ (by rw [hkey]; exact hm)
    · have := replaceOrAppend_mem_key
        (mkAccount uuidOf accType username passwordToken) accounts
        (by rw [hkey]; exact hm)
      have hlen := congrArg List.length this
      simpa using hlen
  · intro hu hm
    unfold add_account
    rw [if_neg hu]
    exact replaceOrAppend_not_mem _ _ (by rw [hkey]; exact hm)

/-- A concrete stored account record for the C10 witness. -/
def playerAcc : Account :=
  { type := "offline", username := "Player", uuid := "u", token := "0",
    client := none }

/-- Claim C10, witness: `add_account` behaviour on a concrete
single-record list satisfying the invariant. -/
theorem add_account_invariant_witness :
    ((add_account (fun _ => "u2") "offline" "Steve" none [playerAcc]).map
        accountKey).Nodup ∧
    ("Steve" = "" →
      add_account (fun _ => "u2") "offline" "Steve" none [playerAcc] =
        [playerAcc]) ∧
    ("Steve" ≠ "" → ("offline", "Steve") ∈ [playerAcc].map accountKey →
      (add_account (fun _ => "u2") "offline" "Steve" none [playerAcc]).map
          accountKey = [playerAcc].map accountKey ∧
      (add_account (fun _ => "u2") "offline" "Steve" none
          [playerAcc]).length = [playerAcc].length) ∧
    ("Steve" ≠ "" → ("offline", "Steve") ∉ [playerAcc].map accountKey →
      add_account (fun _ => "u2") "offline" "Steve" none [playerAcc] =
        [playerAcc] ++ [mkAccount (fun _ => "u2") "offline" "Steve" none]) :=
  add_account_invariant (fun _ => "u2") "offline" "Steve" none [playerAcc]
    (by decide)

/-! ## The installer (Client.py `install_version`, lines 156-245).

The on-disk state is the list of file paths present (`FS`); `download_file`
always succeeds and writes its destination (the claims about installation
idempotence condition on a successful first run).  The network and the
contents of downloaded files are an `InstallEnv` of deterministic maps;
paths are modelled relative to `mc_dir`. -/

/-- The set of files present on disk, as a list of paths. -/
def FS := List String
deriving Repr, DecidableEq

/-- Path membership (`os.path.isfile`). -/
def FS.has : FS → String → Bool
  | [], _ => false
  | q :: rest, p => p == q || FS.has rest p

/-- Writing a file (`download_file` / `zipfile.extract`): the path becomes
present. -/
def FS.write (fs : FS) (p : String) : FS :=
  if fs.has p then fs else p :: fs

/-- The `if not os.path.isfile(path): download_file(...)` pattern: returns
the new state and the number of network fetches performed (0 or 1). -/
def fetchIfMissing (p : String) (fs : FS) : FS × Nat :=
  if fs.has p then (fs, 0) else (p :: fs, 1)

/-- The constant directory names of the source, relative to `mc_dir`. -/
def VERSIONS_DIR : String := "versions"

def ASSETS_DIR : String := "assets"

def LIBRARIES_DIR : String := "libraries"

/-- An asset-index object entry's content-addressed object path
(Client.py lines 238-239): `os.path.join(ASSETS_DIR, "objects",
hash_val[:2], hash_val)`. -/
def assetObjectPath (h : String) : String :=
  ASSETS_DIR ++ "/objects/" ++ h.take 2 ++ "/" ++ h

/-- One iteration of the asset loop (Client.py lines 235-243): entries
whose `hash` is absent or empty (falsy) are skipped; otherwise the object
is fetched iff its content-addressed path is not already a file. -/
def processAsset (fs : FS) (hashVal : Option String) : FS × Nat :=
  match hashVal with
  | none => (fs, 0)
  | some h => if h = "" then (fs, 0) else fetchIfMissing (assetObjectPath h) fs

/-- The asset loop over all object entries of the asset index. -/
def processAssets : List (Option String) → FS → FS × Nat
  | [], fs => (fs, 0)
  | h :: rest, fs =>
      let r := processAsset fs h
      let rr := processAssets rest r.1
      (rr.1, r.2 + rr.2)

/-- The environment of an installation: the Mojang manifest
(`all_versions`), the contents of version JSONs, the objects of each asset
index, the member names of each native archive, and the host architecture. -/
structure InstallEnv where
  manifest : String → Option String
  desc : String → Option VersionData
  assetObjects : String → List (Option String)
  zipMembers : String → List String
  arm64 : Bool

/-- The errors `install_version` can raise.  `outOfFuel` marks a run of
the embedding whose recursion depth exceeded the fuel: the Python
original has no such bound and recurses until the interpreter aborts it. -/
inductive InstallErr where
  | outOfFuel
  | unknownVersion (vid : String)
  | descriptorUnreadable (vid : String)
deriving Repr, DecidableEq

/-- The native classifier key selection (Client.py line 207):
`'natives-osx-arm64' if is_arm64() and 'natives-osx-arm64' in classifiers
else natives_info.get('osx', '').replace("${arch}", "64")`, and the
artifact path the chosen key maps to, when any. -/
def nativeArtifactPath (env : InstallEnv) (lib : Lib) : Option String :=
  match lib.natives with
  | none => none
  | some osxVal =>
      if lib.classifiers.isEmpty then none
      else
        let key :=
          if env.arm64 && (lib.classifiers.lookup "natives-osx-arm64").isSome
          then "natives-osx-arm64"
          else (osxVal.getD "").replace "${arch}" "64"
        lib.classifiers.lookup key

/-- The native extraction loop (Client.py lines 217-220): every zip member
that is not under `META-INF/` and is not a directory entry is extracted
into the per-version natives directory.  Extraction is a local write, not
a network fetch. -/
def extractNatives (nativesDir : String) : List String → FS → FS
  | [], fs => fs
  | m :: ms, fs =>
      extractNatives nativesDir ms
        (if m.startsWith "META-INF/" || m.endsWith "/" then fs
         else fs.write (nativesDir ++ "/" ++ m))

/-- One iteration of the library loop (Client.py lines 191-220): skip when
the rules disallow (Client.py hardcodes the OS name "osx"); fetch the
classpath artifact if declared and missing; fetch the native archive if a
classifier matches and it is missing, then extract it. -/
def processLib (env : InstallEnv) (versionFolder : String) (fs : FS)
    (lib : Lib) : FS × Nat :=
  if !lib_rules_allow lib.rules "osx" then (fs, 0)
  else
    let r1 :=
      match lib.artifactPath with
      | some p => fetchIfMissing (LIBRARIES_DIR ++ "/" ++ p) fs
      | none => (fs, 0)
    match nativeArtifactPath env lib with
    | some np =>
        let nativePath := LIBRARIES_DIR ++ "/" ++ np
        let r2 := fetchIfMissing nativePath r1.1
        let fs3 := extractNatives (versionFolder ++ "/natives")
          (env.zipMembers nativePath) r2.1
        (fs3, r1.2 + r2.2)
    | none => r1

/-- The library loop over the merged child-then-parent list. -/
def processLibs (env : InstallEnv) (versionFolder : String) :
    List Lib → FS → FS × Nat
  | [], fs => (fs, 0)
  | lib :: rest, fs =>
      let r := processLib env versionFolder fs lib
      let rr := processLibs env versionFolder rest r.1
      (rr.1, r.2 + rr.2)

/-- Handling of one effective asset index (Client.py lines 223-243): its
JSON is fetched if missing, then every object entry is fetched into its
content-addressed path if missing. -/
def processOneAssetIndex (env : InstallEnv) (ai : AssetIndexInfo) (fs : FS) :
    FS × Nat :=
  let idxDest := ASSETS_DIR ++ "/indexes/" ++ ai.id ++ ".json"
  let r1 := fetchIfMissing idxDest fs
  let r2 := processAssets (env.assetObjects ai.id) r1.1
  (r2.1, r1.2 + r2.2)

/-- The asset-index step (Client.py line 222):
`asset_index_info = version_data.get("assetIndex") or
parent_data.get("assetIndex")`, skipped entirely when neither declares
one. -/
def processAssetIndex (env : InstallEnv) (vdata pdata : VersionData)
    (fs : FS) : FS × Nat :=
  match vdata.assetIndex with
  | some ai => processOneAssetIndex env ai fs
  | none =>
      match pdata.assetIndex with
      | some ai => processOneAssetIndex env ai fs
      | none => (fs, 0)

/-- The descriptor step (Client.py lines 162-168): when the version JSON
is not on disk, the version must be in the Mojang manifest (else the
function raises) and its JSON is downloaded. -/
def ensureDescriptor (env : InstallEnv) (vid jsonPath : String) (fs : FS) :
    Except InstallErr (FS × Nat) :=
  if fs.has jsonPath then .ok (fs, 0)
  else
    match env.manifest vid with
    | none => .error (.unknownVersion vid)
    | some _ => .ok (jsonPath :: fs, 1)

/-- The client-jar step (Client.py lines 182-187): fetched only when
`downloads.client` exists, the jar is missing, and a url is present. -/
def ensureClientJar (vdata : VersionData) (jarPath : String) (fs : FS) :
    FS × Nat :=
  match vdata.clientDownload with
  | some urlOpt =>
      if fs.has jarPath then (fs, 0)
      else
        match urlOpt with
        | some _ => (jarPath :: fs, 1)
        | none => (fs, 0)
  | none => (fs, 0)

/-- Client.py `install_version(version_id, ...)` (lines 156-245), indexed
by fuel for the unbounded `inheritsFrom` recursion of lines 173-180.
Returns the final on-disk state and the number of network fetches
performed. -/
def installVersion (env : InstallEnv) : Nat → String → FS →
    Except InstallErr (FS × Nat)
  | 0, _, _ => .error .outOfFuel
  | fuel + 1, vid, fs =>
      let versionFolder := VERSIONS_DIR ++ "/" ++ vid
      let jsonPath := versionFolder ++ "/" ++ vid ++ ".json"
      let jarPath := versionFolder ++ "/" ++ vid ++ ".jar"
      match ensureDescriptor env vid jsonPath fs with
      | .error e => .error e
      | .ok (fs1, n1) =>
          match env.desc vid with
          | none => .error (.descriptorUnreadable vid)
          | some vdata =>
              let parentStep : Except InstallErr (FS × Nat × VersionData) :=
                match vdata.inheritsFrom with
                | none => .ok (fs1, 0, emptyVersionData)
                | some pid =>
                    match installVersion env fuel pid fs1 with
                    | .error e => .error e
                    | .ok (fs2, n2) =>
                        match env.desc pid with
                        | none => .error (.descriptorUnreadable pid)
                        | some pdata => .ok (fs2, n2, pdata)
              match parentStep with
              | .error e => .error e
              | .ok (fs2, n2, pdata) =>
                  let r3 := ensureClientJar vdata jarPath fs2
                  let r4 := processLibs env versionFolder
                    (installLibraries vdata pdata) r3.1
                  let r5 := processAssetIndex env vdata pdata r4.1
                  .ok (r5.1, n1 + n2 + r3.2 + r4.2 + r5.2)

/-! ### Re-run lemmas: every installer step only adds files, and re-run
on any state containing its output performs zero fetches and changes
nothing. -/

/-- `a` is a sub-state of `b`: every file present in `a` is present in `b`. -/
def FSsub (a b : FS) : Prop := ∀ p, a.has p = true → b.has p = true

theorem FSsub.refl (a : FS) : FSsub a a := fun _ h => h

theorem FSsub.trans {a b c : FS} (h1 : FSsub a b) (h2 : FSsub b c) :
    FSsub a c := fun p h => h2 p (h1 p h)

theorem FS.has_cons (q : String) (fs : FS) (p : String) :
    FS.has (q :: fs) p = (p == q || fs.has p) := rfl

theorem FSsub.cons (q : String) (fs : FS) : FSsub fs (q :: fs) := by
  intro p h
  rw [FS.has_cons, h, Bool.or_true]

theorem FS.has_cons_self (q : String) (fs : FS) : FS.has (q :: fs) q = true := by
  rw [FS.has_cons]
  simp

theorem FS.write_sub (fs : FS) (p : String) : FSsub fs (fs.write p) := by
  unfold FS.write
  split
  · exact FSsub.refl fs
  · exact FSsub.cons p fs

theorem FS.has_write_self (fs : FS) (p : String) : (fs.write p).has p = true := by
  unfold FS.write
  split
  · assumption
  · exact FS.has_cons_self p fs

theorem FS.write_stable (fs : FS) (p : String) (h : fs.has p = true) :
    fs.write p = fs := by
  unfold FS.write
  rw [h]
  rfl

theorem fetchIfMissing_fst (p : String) (fs : FS) :
    (fetchIfMissing p fs).1 = fs.write p := by
  unfold fetchIfMissing FS.write
  split <;> rfl

theorem fetchIfMissing_sub (p : String) (fs : FS) :
    FSsub fs (fetchIfMissing p fs).1 := by
  rw [fetchIfMissing_fst]
  exact FS.write_sub fs p

theorem fetchIfMissing_has (p : String) (fs : FS) :
    ((fetchIfMissing p fs).1).has p = true := by
  rw [fetchIfMissing_fst]
  exact FS.has_write_self fs p

theorem fetchIfMissing_stable (p : String) (g : FS) (h : g.has p = true) :
    fetchIfMissing p g = (g, 0) := by
  unfold fetchIfMissing
  rw [h]
  rfl

/-- Whether the native extraction loop skips a zip member. -/
def skipMember (m : String) : Bool := m.startsWith "META-INF/" || m.endsWith "/"

theorem extractNatives_def (d : String) (m : String) (ms : List String)
    (fs : FS) :
    extractNatives d (m :: ms) fs =
      extractNatives d ms
        (if skipMember m then fs else fs.write (d ++ "/" ++ m)) := by
  simp only [extractNatives, skipMember]

theorem extractNatives_sub (d : String) (ms : List String) (fs : FS) :
    FSsub fs (extractNatives d ms fs) := by
  induction ms generalizing fs with
  | nil => exact FSsub.refl fs
  | cons m rest ih =>
      rw [extractNatives_def]
      split
      · exact ih fs
      · exact (FS.write_sub fs _).trans (ih _)

theorem extractNatives_has (d : String) (ms : List String) (fs : FS)
    (m : String) (hm : m ∈ ms) (hskip : skipMember m = false) :
    (extractNatives d ms fs).has (d ++ "/" ++ m) = true := by
  induction ms generalizing fs with
  | nil => simp at hm
  | cons m0 rest ih =>
      rw [extractNatives_def]
      rcases List.mem_cons.mp hm with heq | hmem
      · subst heq
        rw [hskip]
        simp only [if_neg Bool.false_ne_true]
        exact extractNatives_sub d rest _ _ (FS.has_write_self fs _)
      · split
        · exact ih fs hmem
        · exact ih _ hmem

theorem extractNatives_stable (d : String) (ms : List String) (g : FS)
    (h : ∀ m ∈ ms, skipMember m = false → g.has (d ++ "/" ++ m) = true) :
    extractNatives d ms g = g := by
  induction ms with
  | nil => rfl
  | cons m rest ih =>
      rw [extractNatives_def]
      cases hsk : skipMember m with
      | true =>
          simp only [if_pos rfl]
          exact ih (fun x hx hs => h x (List.mem_cons_of_mem m hx) hs)
      | false =>
          simp only [if_neg Bool.false_ne_true]
          rw [FS.write_stable g _ (h m (List.mem_cons_self m rest) hsk)]
          exact ih (fun x hx hs => h x (List.mem_cons_of_mem m hx) hs)

theorem processAsset_replay (fs : FS) (h : Option String) :
    FSsub fs (processAsset fs h).1 ∧
    ∀ g, FSsub (processAsset fs h).1 g → processAsset g h = (g, 0) := by
  match h with
  | none => exact ⟨FSsub.refl fs, fun g _ => rfl⟩
  | some hv =>
      by_cases he : hv = ""
      · refine ⟨?_, ?_⟩
        · simp only [processAsset, if_pos he]
          exact FSsub.refl fs
        · intro g _
          simp only [processAsset, if_pos he]
      · refine ⟨?_, ?_⟩
        · simp only [processAsset, if_neg he]
          exact fetchIfMissing_sub _ fs
        · intro g hg
          simp only [processAsset, if_neg he] at hg ⊢
          exact fetchIfMissing_stable _ g
            (hg _ (fetchIfMissing_has (assetObjectPath hv) fs))

theorem processAssets_replay (objects : List (Option String)) (fs : FS) :
    FSsub fs (processAssets objects fs).1 ∧
    ∀ g, FSsub (processAssets objects fs).1 g →
      processAssets objects g = (g, 0) := by
  induction objects generalizing fs with
  | nil => exact ⟨FSsub.refl fs, fun g _ => rfl⟩
  | cons h rest ih =>
      have h1 := processAsset_replay fs h
      have h2 := ih (processAsset fs h).1
      refine ⟨?_, ?_⟩
      · simp only [processAssets]
        exact h1.1.trans h2.1
      · intro g hg
        simp only [processAssets] at hg ⊢
        have hg1 : FSsub (processAsset fs h).1 g := h2.1.trans hg
        rw [h1.2 g hg1]
        simp only []
        rw [h2.2 g hg]
        rfl

theorem processLib_replay (env : InstallEnv) (vf : String) (fs : FS)
    (lib : Lib) :
    FSsub fs (processLib env vf fs lib).1 ∧
    ∀ g, FSsub (processLib env vf fs lib).1 g →
      processLib env vf g lib = (g, 0) := by
  by_cases hallow : lib_rules_allow lib.rules "osx" = true
  · have hral : (!lib_rules_allow lib.rules "osx") = false := by
      rw [hallow]; rfl
    have hart : FSsub fs
        (match lib.artifactPath with
         | some p => fetchIfMissing (LIBRARIES_DIR ++ "/" ++ p) fs
         | none => (fs, 0)).1 := by
      match hap : lib.artifactPath with
      | some p => exact fetchIfMissing_sub _ fs
      | none => exact FSsub.refl fs
    refine ⟨?_, ?_⟩
    · simp only [processLib, hral, Bool.false_eq_true, if_neg, ite_false]
      match hna : nativeArtifactPath env lib with
      | some np =>
          simp only []
          exact hart.trans ((fetchIfMissing_sub _ _).trans
            (extractNatives_sub _ _ _))
      | none =>
          simp only []
          exact hart
    · intro g hg
      simp only [processLib, hral, Bool.false_eq_true, if_neg, ite_false] at hg ⊢
      match hna : nativeArtifactPath env lib with
      | some np =>
          rw [hna] at hg
          simp only [] at hg ⊢
          match hap : lib.artifactPath with
          | some p =>
              rw [hap] at hg
              simp only [] at hg ⊢
              have hga : g.has (LIBRARIES_DIR ++ "/" ++ p) = true := by
                apply hg
                apply extractNatives_sub
                apply fetchIfMissing_sub
                exact fetchIfMissing_has _ fs
              have hgn : g.has (LIBRARIES_DIR ++ "/" ++ np) = true := by
                apply hg
                apply extractNatives_sub
                exact fetchIfMissing_has _ _
              rw [fetchIfMissing_stable _ g hga]
              simp only []
              rw [fetchIfMissing_stable _ g hgn]
              simp only []
              rw [extractNatives_stable _ _ g]
              intro m hm hsk
              apply hg
              exact extractNatives_has _ _ _ m hm hsk
          | none =>
              rw [hap] at hg
              simp only [] at hg ⊢
              have hgn : g.has (LIBRARIES_DIR ++ "/" ++ np) = true := by
                apply hg
                apply extractNatives_sub
                exact fetchIfMissing_has _ fs
              rw [fetchIfMissing_stable _ g hgn]
              simp only []
              rw [extractNatives_stable _ _ g]
              intro m hm hsk
              apply hg
              exact extractNatives_has _ _ _ m hm hsk
      | none =>
          rw [hna] at hg
          simp only [] at hg ⊢
          match hap : lib.artifactPath with
          | some p =>
              rw [hap] at hg
              simp only [] at hg ⊢
              have hga : g.has (LIBRARIES_DIR ++ "/" ++ p) = true :=
                hg _ (fetchIfMissing_has _ fs)
              rw [fetchIfMissing_stable _ g hga]
          | none => rfl
  · have hral : (!lib_rules_allow lib.rules "osx") = true := by
      rw [Bool.not_eq_true] at hallow
      rw [hallow]
      rfl
    refine ⟨?_, ?_⟩
    · simp only [processLib, hral, if_pos]
      exact FSsub.refl fs
    · intro g _
      simp only [processLib, hral, if_pos]

theorem processLibs_replay (env : InstallEnv) (vf : String) (libs : List Lib)
    (fs : FS) :
    FSsub fs (processLibs env vf libs fs).1 ∧
    ∀ g, FSsub (processLibs env vf libs fs).1 g →
      processLibs env vf libs g = (g, 0) := by
  induction libs generalizing fs with
  | nil => exact ⟨FSsub.refl fs, fun g _ => rfl⟩
  | cons lib rest ih =>
      have h1 := processLib_replay env vf fs lib
      have h2 := ih (processLib env vf fs lib).1
      refine ⟨?_, ?_⟩
      · simp only [processLibs]
        exact h1.1.trans h2.1
      · intro g hg
        simp only [processLibs] at hg ⊢
        have hg1 : FSsub (processLib env vf fs lib).1 g := h2.1.trans hg
        rw [h1.2 g hg1]
        simp only []
        rw [h2.2 g hg]
        rfl

theorem processOneAssetIndex_replay (env : InstallEnv) (ai : AssetIndexInfo)
    (fs : FS) :
    FSsub fs (processOneAssetIndex env ai fs).1 ∧
    ∀ g, FSsub (processOneAssetIndex env ai fs).1 g →
      processOneAssetIndex env ai g = (g, 0) := by
  have h1 := fetchIfMissing_sub
    (ASSETS_DIR ++ "/indexes/" ++ ai.id ++ ".json") fs
  have h2 := processAssets_replay (env.assetObjects ai.id)
    (fetchIfMissing (ASSETS_DIR ++ "/indexes/" ++ ai.id ++ ".json") fs).1
  refine ⟨?_, ?_⟩
  · simp only [processOneAssetIndex]
    exact h1.trans h2.1
  · intro g hg
    simp only [processOneAssetIndex] at hg ⊢
    have hgi : g.has (ASSETS_DIR ++ "/indexes/" ++ ai.id ++ ".json") = true :=
      hg _ (h2.1 _ (fetchIfMissing_has _ fs))
    rw [fetchIfMissing_stable _ g hgi]
    simp only []
    rw [h2.2 g hg]
    rfl

theorem processAssetIndex_replay (env : InstallEnv) (vdata pdata : VersionData)
    (fs : FS) :
    FSsub fs (processAssetIndex env vdata pdata fs).1 ∧
    ∀ g, FSsub (processAssetIndex env vdata pdata fs).1 g →
      processAssetIndex env vdata pdata g = (g, 0) := by
  unfold processAssetIndex
  match vdata.assetIndex with
  | some ai => exact processOneAssetIndex_replay env ai fs
  | none =>
      match pdata.assetIndex with
      | some ai => exact processOneAssetIndex_replay env ai fs
      | none => exact ⟨FSsub.refl fs, fun g _ => rfl⟩

theorem ensureDescriptor_replay (env : InstallEnv) (vid jsonPath : String)
    (fs fs1 : FS) (n1 : Nat)
    (h : ensureDescriptor env vid jsonPath fs = .ok (fs1, n1)) :
    FSsub fs fs1 ∧ fs1.has jsonPath = true ∧
    ∀ g, FSsub fs1 g → ensureDescriptor env vid jsonPath g = .ok (g, 0) := by
  unfold ensureDescriptor at h
  by_cases hj : fs.has jsonPath = true
  · rw [if_pos hj] at h
    cases h
    refine ⟨FSsub.refl fs, hj, ?_⟩
    intro g hg
    unfold ensureDescriptor
    rw [if_pos (hg _ hj)]
  · rw [if_neg hj] at h
    match hm : env.manifest vid with
    | none => rw [hm] at h; cases h
    | some u =>
        rw [hm] at h
        cases h
        refine ⟨FSsub.cons _ fs, FS.has_cons_self _ fs, ?_⟩
        intro g hg
        unfold ensureDescriptor
        rw [if_pos (hg _ (FS.has_cons_self _ fs))]

theorem ensureClientJar_replay (vdata : VersionData) (jarPath : String)
    (fs : FS) :
    FSsub fs (ensureClientJar vdata jarPath fs).1 ∧
    ∀ g, FSsub (ensureClientJar vdata jarPath fs).1 g →
      ensureClientJar vdata jarPath g = (g, 0) := by
  match hc : vdata.clientDownload with
  | none =>
      refine ⟨?_, ?_⟩
      · simp only [ensureClientJar, hc]
        exact FSsub.refl fs
      · intro g hg
        simp only [ensureClientJar, hc]
  | some (some u) =>
      by_cases hj : fs.has jarPath = true
      · refine ⟨?_, ?_⟩
        · simp only [ensureClientJar, hc, if_pos hj]
          exact FSsub.refl fs
        · intro g hg
          simp only [ensureClientJar, hc, if_pos hj] at hg
          simp only [ensureClientJar, hc]
          rw [if_pos (hg _ hj)]
      · refine ⟨?_, ?_⟩
        · simp only [ensureClientJar, hc, if_neg hj]
          exact FSsub.cons _ fs
        · intro g hg
          simp only [ensureClientJar, hc, if_neg hj] at hg
          simp only [ensureClientJar, hc]
          rw [if_pos (hg _ (FS.has_cons_self _ fs))]
  | some none =>
      refine ⟨?_, ?_⟩
      · simp only [ensureClientJar, hc]
        by_cases hj : fs.has jarPath = true
        · rw [if_pos hj]
          exact FSsub.refl fs
        · rw [if_neg hj]
          exact FSsub.refl fs
      · intro g hg
        simp only [ensureClientJar, hc]
        by_cases hgj : g.has jarPath = true
        · rw [if_pos hgj]
        · rw [if_neg hgj]

theorem installVersion_replay (env : InstallEnv) :
    ∀ fuel vid fs fs' n,
      installVersion env fuel vid fs = .ok (fs', n) →
      FSsub fs fs' ∧
      ∀ g, FSsub fs' g → installVersion env fuel vid g = .ok (g, 0) := by
  intro fuel
  induction fuel with
  | zero =>
      intro vid fs fs' n h
      simp only [installVersion] at h
      cases h
  | succ fuel ih =>
      intro vid fs fs' n h
      simp only [installVersion] at h
      cases hED : ensureDescriptor env vid
          (VERSIONS_DIR ++ "/" ++ vid ++ "/" ++ vid ++ ".json") fs with
      | error e =>
          rw [hED] at h
          simp only [] at h
          cases h
      | ok pair1 =>
          obtain ⟨fs1, n1⟩ := pair1
          rw [hED] at h
          simp only [] at h
          obtain ⟨hsub01, hjson, hEDre⟩ :=
            ensureDescriptor_replay env vid _ fs fs1 n1 hED
          cases hD : env.desc vid with
          | none =>
              rw [hD] at h
              simp only [] at h
              cases h
          | some vdata =>
              rw [hD] at h
              simp only [] at h
              cases hpar : vdata.inheritsFrom with
              | none =>
                  rw [hpar] at h
                  simp only [] at h
                  cases h
                  have hCJ := ensureClientJar_replay vdata
                    (VERSIONS_DIR ++ "/" ++ vid ++ "/" ++ vid ++ ".jar") fs1
                  have hPL := processLibs_replay env (VERSIONS_DIR ++ "/" ++ vid)
                    (installLibraries vdata emptyVersionData)
                    (ensureClientJar vdata
                      (VERSIONS_DIR ++ "/" ++ vid ++ "/" ++ vid ++ ".jar") fs1).1
                  have hAI := processAssetIndex_replay env vdata emptyVersionData
                    (processLibs env (VERSIONS_DIR ++ "/" ++ vid)
                      (installLibraries vdata emptyVersionData)
                      (ensureClientJar vdata
                        (VERSIONS_DIR ++ "/" ++ vid ++ "/" ++ vid ++ ".jar") fs1).1).1
                  refine ⟨?_, ?_⟩
                  · exact hsub01.trans (hCJ.1.trans (hPL.1.trans hAI.1))
                  · intro g hg
                    simp only [installVersion]
                    rw [hEDre g ((hCJ.1.trans (hPL.1.trans hAI.1)).trans hg)]
                    simp only [hD, hpar]
                    rw [hCJ.2 g ((hPL.1.trans hAI.1).trans hg)]
                    simp only []
                    rw [hPL.2 g (hAI.1.trans hg)]
                    simp only []
                    rw [hAI.2 g hg]
                    rfl
              | some pid =>
                  rw [hpar] at h
                  simp only [] at h
                  cases hrec : installVersion env fuel pid fs1 with
                  | error e =>
                      rw [hrec] at h
                      simp only [] at h
                      cases h
                  | ok pair2 =>
                      obtain ⟨fs2, n2⟩ := pair2
                      rw [hrec] at h
                      simp only [] at h
                      obtain ⟨hsub12, hrecre⟩ := ih pid fs1 fs2 n2 hrec
                      cases hDp : env.desc pid with
                      | none =>
                          rw [hDp] at h
                          simp only [] at h
                          cases h
                      | some pdata =>
                          rw [hDp] at h
                          simp only [] at h
                          cases h
                          have hCJ := ensureClientJar_replay vdata
                            (VERSIONS_DIR ++ "/" ++ vid ++ "/" ++ vid ++ ".jar") fs2
                          have hPL := processLibs_replay env
                            (VERSIONS_DIR ++ "/" ++ vid)
                            (installLibraries vdata pdata)
                            (ensureClientJar vdata
                              (VERSIONS_DIR ++ "/" ++ vid ++ "/" ++ vid ++ ".jar")
                              fs2).1
                          have hAI := processAssetIndex_replay env vdata pdata
                            (processLibs env (VERSIONS_DIR ++ "/" ++ vid)
                              (installLibraries vdata pdata)
                              (ensureClientJar vdata
                                (VERSIONS_DIR ++ "/" ++ vid ++ "/" ++ vid ++ ".jar")
                                fs2).1).1
                          refine ⟨?_, ?_⟩
                          · exact (hsub01.trans hsub12).trans
                              (hCJ.1.trans (hPL.1.trans hAI.1))
                          · intro g hg
                            simp only [installVersion]
                            rw [hEDre g ((hsub12.trans
                              (hCJ.1.trans (hPL.1.trans hAI.1))).trans hg)]
                            simp only [hD, hpar]
                            rw [hrecre g ((hCJ.1.trans (hPL.1.trans hAI.1)).trans hg)]
                            simp only [hDp]
                            rw [hCJ.2 g ((hPL.1.trans hAI.1).trans hg)]
                            simp only []
                            rw [hPL.2 g (hAI.1.trans hg)]
                            simp only []
                            rw [hAI.2 g hg]
                            rfl

/-! Claim theorems for the installer. -/

/-- Claim C4: after a successful run of `install_version`, immediately
re-running it on the resulting on-disk state performs zero network
fetches and leaves the state unchanged: every presence check (descriptor
JSON, client jar, library, native archive, asset index, asset object)
finds the file already present. -/
theorem install_idempotent (env : InstallEnv) (fuel : Nat) (vid : String)
    (fs fs' : FS) (n : Nat)
    (h : installVersion env fuel vid fs = .ok (fs', n)) :
    installVersion env fuel vid fs' = .ok (fs', 0) :=
  (installVersion_replay env fuel vid fs fs' n h).2 fs' (FSsub.refl fs')

/-- A concrete library entry for the C4 witness installation. -/
def witLib : Lib :=
  { rules := [], artifactPath := some "org/lwjgl/lwjgl.jar",
    natives := none, classifiers := [] }

/-- A concrete descriptor for the C4 witness installation. -/
def witVd : VersionData :=
  { emptyVersionData with
    clientDownload := some (some "https://example/client.jar"),
    libraries := [witLib],
    assetIndex := some { id := "17", url := "https://example/17.json" } }

/-- A concrete environment for the C4 witness installation. -/
def witEnv : InstallEnv :=
  { manifest := fun v => if v == "1.20" then some "https://example/1.20.json" else none
  , desc := fun v => if v == "1.20" then some witVd else none
  , assetObjects := fun i => if i == "17" then [some "abc123def"] else []
  , zipMembers := fun _ => []
  , arm64 := false }

/-- The on-disk state the C4 witness installation produces. -/
def witFS : FS :=
  [ "assets/objects/ab/abc123def", "assets/indexes/17.json",
    "libraries/org/lwjgl/lwjgl.jar", "versions/1.20/1.20.jar",
    "versions/1.20/1.20.json" ]

/-- Claim C4, witness: a concrete install from the empty disk performs
five fetches, and the immediate re-run performs zero. -/
theorem install_idempotent_witness :
    installVersion witEnv 1 "1.20" [] = .ok (witFS, 5) ∧
    installVersion witEnv 1 "1.20" witFS = .ok (witFS, 0) :=
  ⟨by rfl, install_idempotent witEnv 1 "1.20" [] witFS 5 (by rfl)⟩

/-- Claim C5: in the asset loop, an entry with hash `h` is stored at the
content-addressed path `assets/objects/<first two hex chars of h>/<h>`,
and it is fetched (exactly one download) iff the file at that path does
not already exist, and skipped (zero downloads) iff it does. -/
theorem asset_object_content_addressed (fs : FS) (h : String) (hne : h ≠ "") :
    (processAsset fs (some h)).1 = fs.write (assetObjectPath h) ∧
    ((processAsset fs (some h)).2 = 1 ↔ fs.has (assetObjectPath h) = false) ∧
    ((processAsset fs (some h)).2 = 0 ↔ fs.has (assetObjectPath h) = true) ∧
    assetObjectPath h = "assets/objects/" ++ h.take 2 ++ "/" ++ h := by
  refine ⟨?_, ?_, ?_, rfl⟩
  · simp only [processAsset, if_neg hne]
    exact fetchIfMissing_fst _ fs
  · simp only [processAsset, if_neg hne]
    unfold fetchIfMissing
    by_cases hh : fs.has (assetObjectPath h) = true
    · rw [if_pos hh]
      simp [hh]
    · rw [if_neg hh]
      rw [Bool.not_eq_true] at hh
      simp [hh]
  · simp only [processAsset, if_neg hne]
    unfold fetchIfMissing
    by_cases hh : fs.has (assetObjectPath h) = true
    · rw [if_pos hh]
      simp [hh]
    · rw [if_neg hh]
      rw [Bool.not_eq_true] at hh
      simp [hh]

/-- Claim C5, witness: the asset step at hash "abc123" on the empty disk
creates `assets/objects/ab/abc123`. -/
theorem asset_object_content_addressed_witness :
    (processAsset ([] : FS) (some "abc123")).1 =
      FS.write ([] : FS) (assetObjectPath "abc123") ∧
    ((processAsset ([] : FS) (some "abc123")).2 = 1 ↔
      FS.has ([] : FS) (assetObjectPath "abc123") = false) ∧
    ((processAsset ([] : FS) (some "abc123")).2 = 0 ↔
      FS.has ([] : FS) (assetObjectPath "abc123") = true) ∧
    assetObjectPath "abc123" =
      "assets/objects/" ++ String.take "abc123" 2 ++ "/" ++ "abc123" :=
  asset_object_content_addressed ([] : FS) "abc123" (by decide)

/-! Claim theorem for cyclic inheritance (Client.py lines 173-180): the
recursion on `inheritsFrom` has no cycle detection and no visited set, so
a self-inheriting descriptor makes the embedding exhaust any amount of
fuel (the Python original recurses until the interpreter kills it,
instead of failing with a cycle-detected resolution error). -/

/-- A descriptor whose `inheritsFrom` refers back to itself. -/
def cyclicVd : VersionData :=
  { emptyVersionData with inheritsFrom := some "A" }

/-- An environment in which every version id resolves to the
self-inheriting descriptor. -/
def cyclicEnv : InstallEnv :=
  { manifest := fun _ => some "https://example/A.json"
  , desc := fun _ => some cyclicVd
  , assetObjects := fun _ => []
  , zipMembers := fun _ => []
  , arm64 := false }

theorem cyclicEnv_manifest (v : String) :
    cyclicEnv.manifest v = some "https://example/A.json" := rfl

theorem cyclicEnv_desc (v : String) : cyclicEnv.desc v = some cyclicVd := rfl

theorem cyclicVd_inherits : cyclicVd.inheritsFrom = some "A" := rfl

/-- Claim C3: on a self-inheriting descriptor, `install_version` never
terminates normally and never raises a cycle-detected error: for every
recursion budget and every starting disk state, the embedding runs out
of fuel, i.e. the source recurses unboundedly instead of detecting the
cycle. -/
theorem install_cycle_no_detection :
    ∀ fuel fs, installVersion cyclicEnv fuel "A" fs = .error .outOfFuel := by
  intro fuel
  induction fuel with
  | zero => intro fs; rfl
  | succ fuel ih =>
      intro fs
      simp only [installVersion, ensureDescriptor, cyclicEnv_manifest,
        cyclicEnv_desc, cyclicVd_inherits, ih, ite_self]
      by_cases hj :
          fs.has (VERSIONS_DIR ++ "/" ++ "A" ++ "/" ++ "A" ++ ".json") = true
      · rw [if_pos hj]
      · rw [if_neg hj]

/-! ## Placeholder substitution (Client.py `launch_game` lines 334-358;
Cat4k.py `launch_game` lines 560-614; CAT2.1.X.py lines 400-424).

Python's `str.format(**table)` is modelled for the simple `{name}`
replacement fields these manifests use: literal characters are copied, a
brace-delimited field is looked up in the keyword table, and a missing
key raises `KeyError` (the `.error` carrying the missing field name). -/

def formatScan (table : List (String × String)) :
    List Char → Option (List Char) → Except String (List Char)
  | [], none => .ok []
  | [], some _ => .error "unterminated replacement field"
  | c :: rest, none =>
      if c = '{' then formatScan table rest (some [])
      else (formatScan table rest none).map (fun t => c :: t)
  | c :: rest, some acc =>
      if c = '}' then
        match table.lookup (String.mk acc.reverse) with
        | some v => (formatScan table rest none).map (fun t => v.data ++ t)
        | none => .error (String.mk acc.reverse)
      else formatScan table rest (some (c :: acc))

/-- `s.format(**table)` restricted to simple `{name}` fields. -/
def pyFormat (s : String) (table : List (String × String)) :
    Except String String :=
  (formatScan table s.data none).map String.mk

/-- Python's `in` on strings: whether `needle` occurs as a substring. -/
def containsSeq (needle : List Char) : List Char → Bool
  | [] => needle.isEmpty
  | c :: rest => needle.isPrefixOf (c :: rest) || containsSeq needle rest

/-- Cat4k.py's per-argument table filter
`{k: v for k, v in replacements.items() if k in arg}`. -/
def filterTable (table : List (String × String)) (s : String) :
    List (String × String) :=
  table.filter (fun kv => containsSeq kv.1.data s.data)

/-- Cat4k.py literal-argument substitution:
`arg.format(**{k: v for k, v in replacements.items() if k in arg})`. -/
def cat4kFormatArg (s : String) (table : List (String × String)) :
    Except String String :=
  pyFormat s (filterTable table s)

/-- The non-account inputs of the substitution table. -/
structure LaunchCtx where
  versionId : String
  gameDir : String
  assetsRoot : String
  assetsIndexName : String
  versionType : String
  nativesDir : String
  pathSep : String
  lunarClient : Bool

/-- The `replacements` dict of Client.py lines 334-348: every key carries
the literal `${...}` wrapper. -/
def clientReplacements (account : Account) (ctx : LaunchCtx) :
    List (String × String) :=
  [ ("${auth_player_name}", account.username),
    ("${version_name}", ctx.versionId),
    ("${game_directory}", ctx.gameDir),
    ("${assets_root}", ctx.assetsRoot),
    ("${assets_index_name}", ctx.assetsIndexName),
    ("${auth_uuid}", account.uuid),
    ("${auth_access_token}", account.token),
    ("${user_type}", if account.type = "microsoft" then "msa" else "legacy"),
    ("${version_type}", ctx.versionType),
    ("${natives_directory}", ctx.nativesDir),
    ("${classpath_separator}", ctx.pathSep),
    ("${launcher_name}", if ctx.lunarClient then "LunarClient" else "CatClient-M1"),
    ("${launcher_version}", "1.2") ]

/-- The `replacements` dict of Cat4k.py lines 560-574: bare keys without
the `${...}` wrapper. -/
def cat4kReplacements (account : Account) (ctx : LaunchCtx) :
    List (String × String) :=
  [ ("auth_player_name", account.username),
    ("version_name", ctx.versionId),
    ("game_directory", ctx.gameDir),
    ("assets_root", ctx.assetsRoot),
    ("assets_index_name", ctx.assetsIndexName),
    ("auth_uuid", account.uuid),
    ("auth_access_token", account.token),
    ("user_type", if account.type = "microsoft" then "msa" else "legacy"),
    ("version_type", ctx.versionType),
    ("natives_directory", ctx.nativesDir),
    ("classpath_separator", ctx.pathSep),
    ("launcher_name", if ctx.lunarClient then "LunarClient" else "CatClient"),
    ("launcher_version", "0.1.0") ]

/-- Cat4k.py conditional-token value processing (lines 605-614): each
value string is formatted with the full table and appended; a `KeyError`
aborts the token but keeps the values already appended. -/
def formatUntilError (table : List (String × String)) : List String → List String
  | [] => []
  | v :: rest =>
      match pyFormat v table with
      | .ok s => s :: formatUntilError table rest
      | .error _ => []

/-- The Cat4k.py game-argument loop (lines 598-614): a literal token is
formatted with the filtered table and skipped on `KeyError`; a
conditional token with a `value` contributes its formatted values. -/
def cat4kGameArgs (table : List (String × String)) : List ArgToken → List String
  | [] => []
  | .lit s :: rest =>
      (match cat4kFormatArg s table with
       | .ok v => [v]
       | .error _ => []) ++ cat4kGameArgs table rest
  | .cond _rules value _single :: rest =>
      formatUntilError table value ++ cat4kGameArgs table rest

/-- The account of the spec's substitution example. -/
def steveAcc : Account :=
  { type := "offline", username := "Steve", uuid := "uuid-steve",
    token := "0", client := none }

/-- A concrete launch context for the substitution example. -/
def witCtx : LaunchCtx :=
  { versionId := "1.20", gameDir := "/mc", assetsRoot := "/mc/assets",
    assetsIndexName := "17", versionType := "release",
    nativesDir := "/mc/versions/1.20/natives", pathSep := ":",
    lunarClient := false }

/-- Claim C7: on the literal token `${auth_player_name}` with username
"Steve", Client.py's `arg.format(**replacements)` raises
`KeyError('auth_player_name')` — its table keys carry the `${...}`
wrapper, so the `{auth_player_name}` field finds no key and the launch
builder crashes instead of producing a command — while Cat4k.py's
bare-key table substitutes and the produced argument `$Steve` literally
contains "Steve". -/
theorem placeholder_substitution_divergence :
    pyFormat "${auth_player_name}" (clientReplacements steveAcc witCtx) =
      .error "auth_player_name" ∧
    cat4kGameArgs (cat4kReplacements steveAcc witCtx)
      [ArgToken.lit "${auth_player_name}"] = ["$Steve"] ∧
    containsSeq "Steve".data "$Steve".data = true := by
  refine ⟨rfl, rfl, rfl⟩
